import Mathlib

/-!
Verification of the gm-agent-scripts stat-block conversion pipeline.

This file shallowly embeds the Python sources (parsers/*, validators/*,
statblock_validator.py, docx_statblock_converter.py) into Lean and settles
the frozen claims C1..C10 about them.

Conventions of the embedding:
* Python `str` values are embedded as `List Char` (with `String` wrappers at
  the claim level).  All inputs relevant to the claims are ASCII, for which
  the `unicodedata.normalize('NFKC', ...)` step of the sources is the
  identity; `normalize_text` is therefore embedded as stripping whitespace.
* Python regular expressions are embedded by transliterating each pattern
  into an explicit `Rx` syntax tree and running a backtracking matcher
  (`Rx.search`, `Rx.matchAt`) whose alternation order, greedy/lazy
  quantifier behaviour and capture-group semantics mirror the `re` module.
* Python dictionaries with string keys are embedded as insertion-ordered
  association lists (`PyDict`).
* Functions that can raise are embedded with `Except String`; the carried
  string names the Python exception/message.
* pydantic v2 `field_validator` semantics: validators run in field
  declaration order and `info.data` contains only the previously validated
  fields; a model instance is accepted iff no validator raises.
-/

namespace StatBlock

/-- Decidable equality for `Except` results (used to state validator
outcomes by `decide`). -/
instance {ε α : Type} [DecidableEq ε] [DecidableEq α] : DecidableEq (Except ε α) :=
  fun x y =>
    match x, y with
    | .ok a, .ok b =>
      if h : a = b then isTrue (by rw [h]) else isFalse (fun he => h (Except.ok.inj he))
    | .error a, .error b =>
      if h : a = b then isTrue (by rw [h]) else isFalse (fun he => h (Except.error.inj he))
    | .ok _, .error _ => isFalse (fun he => Except.noConfusion he)
    | .error _, .ok _ => isFalse (fun he => Except.noConfusion he)

/-! ## Python string primitives over `List Char` -/

/-- Python whitespace for `str.strip()` / `str.split()` (ASCII range). -/
def pyIsSpace (c : Char) : Bool :=
  c = ' ' || c = '\t' || c = '\n' || c = '\r' || c = '\x0b' || c = '\x0c'

/-- Python `str.strip()` with no argument. -/
def pyStrip (s : List Char) : List Char :=
  ((s.dropWhile pyIsSpace).reverse.dropWhile pyIsSpace).reverse

/-- Python `str.strip(chars)`: strip any of the given characters from both ends. -/
def pyStripChars (cs : List Char) (s : List Char) : List Char :=
  ((s.dropWhile (cs.contains ·)).reverse.dropWhile (cs.contains ·)).reverse

/-- Python `str.lower()` (ASCII case mapping suffices for all inputs used). -/
def pyLower (s : List Char) : List Char :=
  s.map Char.toLower

/-- Does `pat` occur at the head of `s`? (`str.startswith`). -/
def startsWithSub : List Char → List Char → Bool
  | [], _ => true
  | _ :: _, [] => false
  | p :: ps, c :: cs => p = c && startsWithSub ps cs

/-- Python `pat in s` substring test. -/
def containsSub (pat : List Char) : List Char → Bool
  | [] => startsWithSub pat []
  | c :: cs => startsWithSub pat (c :: cs) || containsSub pat cs

/-- Worker for `pySplitOn`; the fuel argument (initially the input length,
an upper bound on the number of splits) keeps the recursion structural so
that the definition evaluates inside the kernel. -/
def pySplitOnF (sep : List Char) : Nat → List Char → List (List Char)
  | _, [] => [[]]
  | 0, s => [s]
  | f + 1, c :: cs =>
    if 0 < sep.length && startsWithSub sep (c :: cs) then
      [] :: pySplitOnF sep f ((c :: cs).drop sep.length)
    else
      match pySplitOnF sep f cs with
      | [] => [[c]]
      | h :: t => (c :: h) :: t

/-- Python `str.split(sep)` for a non-empty separator: split at every
occurrence, keeping empty pieces.  (An empty separator never arises in the
sources; the guard keeps the function total.) -/
def pySplitOn (sep : List Char) (s : List Char) : List (List Char) :=
  pySplitOnF sep s.length s

/-- Worker for `pySplitWs`: `cur` is the reversed current token. -/
def pySplitWsAux : List Char → List Char → List (List Char)
  | [], cur => if cur = [] then [] else [cur.reverse]
  | c :: cs, cur =>
    if pyIsSpace c then
      if cur = [] then pySplitWsAux cs []
      else cur.reverse :: pySplitWsAux cs []
    else
      pySplitWsAux cs (c :: cur)

/-- Python `str.split()` (no argument): split on runs of whitespace,
discarding empty pieces. -/
def pySplitWs (s : List Char) : List (List Char) :=
  pySplitWsAux s []

/-- Worker for `pyReplace` (fuel as in `pySplitOnF`). -/
def pyReplaceF (pat repl : List Char) : Nat → List Char → List Char
  | _, [] => []
  | 0, s => s
  | f + 1, c :: cs =>
    if 0 < pat.length && startsWithSub pat (c :: cs) then
      repl ++ pyReplaceF pat repl f ((c :: cs).drop pat.length)
    else
      c :: pyReplaceF pat repl f cs

/-- Python `str.replace(pat, repl)` for a non-empty `pat`: replace every
occurrence, scanning left to right. -/
def pyReplace (pat repl : List Char) (s : List Char) : List Char :=
  pyReplaceF pat repl s.length s

/-- Python `int(s)` for decimal strings: optional surrounding whitespace,
optional sign, at least one digit.  `none` models `ValueError`. -/
def pyInt (s : List Char) : Option Int :=
  let t := pyStrip s
  let (sign, digits) :=
    match t with
    | '-' :: rest => ((-1 : Int), rest)
    | '+' :: rest => ((1 : Int), rest)
    | rest => ((1 : Int), rest)
  if digits = [] || !digits.all Char.isDigit then
    none
  else
    some (sign * (digits.foldl (fun acc c => acc * 10 + (c.toNat - '0'.toNat)) 0 : Nat))

/-- Value of a list of decimal digits (used where a regex guarantees the
capture is all digits, mirroring Python `int(match.group(i))`). -/
def digitsToNat (s : List Char) : Nat :=
  s.foldl (fun acc c => acc * 10 + (c.toNat - '0'.toNat)) 0

/-- Signed integer from a `[+-]\d+` capture. -/
def signedToInt (s : List Char) : Int :=
  match s with
  | '-' :: rest => -(digitsToNat rest : Int)
  | '+' :: rest => (digitsToNat rest : Int)
  | rest => (digitsToNat rest : Int)

/-! ## A backtracking regular-expression engine

Each Python `re` pattern used by the sources is transliterated into an `Rx`
tree.  The matcher mirrors the `re` module: ordered alternation, greedy and
lazy quantifiers with backtracking, numbered capturing groups (the most
recent match of a group wins), `re.match` anchoring and `re.search`
left-to-right scanning. -/

inductive Rx where
  | lit   : List Char → Rx
  | cls   : (Char → Bool) → Rx
  | seq   : Rx → Rx → Rx
  | alt   : Rx → Rx → Rx
  | opt   : Rx → Rx
  | star  : Rx → Rx
  | plus  : Rx → Rx
  | starL : Rx → Rx
  | plusL : Rx → Rx
  | grp   : Nat → Rx → Rx
  | eos   : Rx

/-- Captures: group number paired with captured text. -/
abbrev Caps := List (Nat × List Char)

/-- CPS backtracking matcher.  `k` receives the remaining input and the
captures; `fuel` only bounds the recursion (generously chosen by callers). -/
def Rx.run : Nat → Rx → List Char → Caps →
    (List Char → Caps → Option (List Char × Caps)) → Option (List Char × Caps)
  | 0, _, _, _, _ => none
  | fuel + 1, r, s, caps, k =>
    match r with
    | .lit l => if startsWithSub l s then k (s.drop l.length) caps else none
    | .cls p =>
      match s with
      | [] => none
      | c :: cs => if p c then k cs caps else none
    | .seq a b => Rx.run fuel a s caps (fun rem caps' => Rx.run fuel b rem caps' k)
    | .alt a b => (Rx.run fuel a s caps k) <|> (Rx.run fuel b s caps k)
    | .opt a => (Rx.run fuel a s caps k) <|> k s caps
    | .star a =>
      (Rx.run fuel a s caps (fun rem caps' => Rx.run fuel (.star a) rem caps' k)) <|>
        k s caps
    | .plus a => Rx.run fuel a s caps (fun rem caps' => Rx.run fuel (.star a) rem caps' k)
    | .starL a =>
      (k s caps) <|>
        Rx.run fuel a s caps (fun rem caps' => Rx.run fuel (.starL a) rem caps' k)
    | .plusL a => Rx.run fuel a s caps (fun rem caps' => Rx.run fuel (.starL a) rem caps' k)
    | .grp n a =>
      Rx.run fuel a s caps (fun rem caps' =>
        k rem ((n, s.take (s.length - rem.length)) :: caps'))
    | .eos => if s = [] || s = ['\n'] then k s caps else none

/-- `re.match`: anchored at the start; returns remaining input and captures. -/
def Rx.matchAt (r : Rx) (s : List Char) : Option (List Char × Caps) :=
  Rx.run ((s.length + 2) * 1000) r s [] (fun rem caps => some (rem, caps))

/-- `re.search` from position `i` (of the original string): returns the match
start index, the input remaining after the match, and the captures. -/
def Rx.searchFrom (r : Rx) (i : Nat) (s : List Char) :
    Option (Nat × List Char × Caps) :=
  match r.matchAt s with
  | some (rem, caps) => some (i, rem, caps)
  | none =>
    match s with
    | [] => none
    | _ :: cs => r.searchFrom (i + 1) cs

/-- `re.search` on the whole string. -/
def Rx.search (r : Rx) (s : List Char) : Option (Nat × List Char × Caps) :=
  r.searchFrom 0 s

/-- Is there a match anywhere? -/
def Rx.found (r : Rx) (s : List Char) : Bool :=
  (r.search s).isSome

/-- `match.group(n)`: the most recently recorded capture of group `n`
(`none` models Python `None` for an unmatched optional group). -/
def capGet (caps : Caps) (n : Nat) : Option (List Char) :=
  (caps.find? (fun p => p.1 = n)).map (·.2)

/-- One pass of `re.sub(pattern, repl, s)` (all occurrences, empty
replacement of non-overlapping matches scanning left to right). -/
def rxSubSteps (r : Rx) (repl : List Char) : Nat → List Char → List Char
  | 0, s => s
  | f + 1, s =>
    match r.matchAt s with
    | some (rem, _) =>
      if rem.length < s.length then
        repl ++ rxSubSteps r repl f rem
      else
        match s with
        | [] => repl
        | c :: cs => repl ++ c :: rxSubSteps r repl f cs
    | none =>
      match s with
      | [] => []
      | c :: cs => c :: rxSubSteps r repl f cs

/-- `re.sub(pattern, repl, s)`. -/
def rxSubAll (r : Rx) (repl : List Char) (s : List Char) : List Char :=
  rxSubSteps r repl (s.length + 1) s

/-- Pattern-building helpers (transliteration vocabulary). -/
def Rx.str (s : String) : Rx := .lit s.data

/-- Empty pattern. -/
def Rx.eps : Rx := .lit []

/-- Sequence of patterns. -/
def Rx.cat (rs : List Rx) : Rx := rs.foldr .seq .eps

/-- Ordered alternation of patterns (first listed is tried first). -/
def Rx.alts : List Rx → Rx
  | [] => .cls (fun _ => false)
  | [r] => r
  | r :: rs => .alt r (Rx.alts rs)

/-- `\d`. -/
def rxDigit : Rx := .cls Char.isDigit

/-- `\w` (ASCII interpretation; all inputs are ASCII). -/
def rxWord : Rx := .cls (fun c => c.isAlphanum || c = '_')

/-- `\s`. -/
def rxSpace : Rx := .cls pyIsSpace

/-- `.` (any character except newline). -/
def rxAny : Rx := .cls (fun c => c ≠ '\n')

/-- A character class given by its member characters. -/
def rxOneOf (s : String) : Rx := .cls (fun c => s.data.contains c)

/-! ## Sorting (Python `sorted` on strings)

Python `sorted` orders strings lexicographically by code point.  On lists
without duplicates any comparison sort yields the same result, so the
embedding uses insertion sort with the code-point order. -/

/-- Code-point lexicographic order on character lists (Python `str <=`). -/
def charListLe : List Char → List Char → Bool
  | [], _ => true
  | _ :: _, [] => false
  | a :: as, b :: bs => a.val < b.val || (a = b && charListLe as bs)

/-- Python `sorted` on a list of strings. -/
def pySorted (l : List String) : List String :=
  l.insertionSort (fun a b => charListLe a.data b.data)

/-! ## `parsers/damage_type_parser.py` (`DamageTypeParser`) -/

namespace DamageTypeParser

/-- `PHYSICAL_DAMAGE_TYPES` (the types that may carry `nonmagical`). -/
def PHYSICAL_DAMAGE_TYPES : List String :=
  ["bludgeoning", "piercing", "slashing"]

/-- `ENERGY_DAMAGE_TYPES`. -/
def ENERGY_DAMAGE_TYPES : List String :=
  ["acid", "cold", "fire", "force", "lightning",
   "necrotic", "poison", "psychic", "radiant", "thunder"]

/-- The union `PHYSICAL_DAMAGE_TYPES | ENERGY_DAMAGE_TYPES` as iterated by
`parse_damage_types`.  A Python `set` iterates in an unspecified
(hash-dependent) order; the embedding fixes one order.  Every claim proved
below is independent of this choice. -/
def allDamageTypes : List String := PHYSICAL_DAMAGE_TYPES ++ ENERGY_DAMAGE_TYPES

/-- `DamageTypeParser.validate_damage_type`. -/
def validate_damage_type (damage_type : String) : Bool :=
  if damage_type = "" then false
  else
    match pySplitWs (pyLower damage_type.data) with
    | [a, b] => a = "nonmagical".data && PHYSICAL_DAMAGE_TYPES.any (fun t => t.data = b)
    | [a] => allDamageTypes.any (fun t => t.data = a)
    | _ => false

/-- `damage_types.add(tok)` on the accumulator embedding the Python set as
a duplicate-free list. -/
def insertToken (acc : List String) (tok : String) : List String :=
  if acc.contains tok then acc else acc ++ [tok]

/-- The body of the inner loop of `parse_damage_types`: handle one
comma-separated token of one `;`-group, accumulating into the result set.
`clean_type` of the source is inlined as the `find?` argument. -/
def addToken (is_nonmagical : Bool) (acc : List String) (dt : List Char) :
    List String :=
  if dt = "and".data || dt = "or".data || dt = [] || startsWithSub "from".data dt then
    acc
  else
    match allDamageTypes.find?
        (fun t => containsSub t.data (pyStrip (pyReplace "damage".data [] dt))) with
    | none => acc
    | some base_type =>
      insertToken acc
        (if is_nonmagical && PHYSICAL_DAMAGE_TYPES.contains base_type then
          "nonmagical " ++ base_type
         else base_type)

/-- Handle one `;`-group of `parse_damage_types`. -/
def addGroup (acc : List String) (group : List Char) : List String :=
  let is_nonmagical := containsSub "nonmagical".data (pyLower group)
  let types := (pySplitOn [','] group).map (fun t => pyLower (pyStrip t))
  types.foldl (addToken is_nonmagical) acc

/-- `DamageTypeParser.parse_damage_types`. -/
def parse_damage_types (text : String) : List String :=
  if text = "" then []
  else
    let groups := (pySplitOn [';'] text.data).map pyStrip
    pySorted (groups.foldl addGroup [])

end DamageTypeParser

/-! ## `statblock_validator.py`: damage resistance/immunity validators -/

/-- The loop body shared by `StatBlockValidator.validate_damage_resistances`
and `validate_damage_immunities`: raise on the first token that fails
`DamageTypeParser.validate_damage_type`. -/
def checkDamageTokens : List String → Except String Unit
  | [] => .ok ()
  | t :: ts =>
    if DamageTypeParser.validate_damage_type t then checkDamageTokens ts
    else .error ("Invalid damage type: " ++ t)

/-! ## `parsers/base_parser.py` (`BaseParser`) -/

namespace BaseParser

/-- `normalize_text`: `unicodedata.normalize('NFKC', text).strip()`.  NFKC is
the identity on the ASCII inputs appearing in the claims, so the embedding
keeps the strip. -/
def normalize_text (s : List Char) : List Char := pyStrip s

/-- Location of the first `.` or `:` (the split point of
`re.split(r'[\.:]', text, maxsplit=1)`). -/
def splitFirstDotColon : List Char → Option (List Char × List Char)
  | [] => none
  | c :: cs =>
    if c = '.' || c = ':' then some ([], cs)
    else (splitFirstDotColon cs).map (fun p => (c :: p.1, p.2))

/-- `BaseParser.split_name_description`. -/
def split_name_description (text : List Char) : List Char × List Char :=
  match splitFirstDotColon text with
  | some (a, b) => (pyStrip a, pyStrip b)
  | none => (pyStrip text, [])

/-- `re.search(r'(.*?)\s*\((.*?)\)\s*(.*)$', text)`. -/
def parentheticalRx : Rx :=
  Rx.cat [.grp 1 (.starL rxAny), .star rxSpace, Rx.str "(",
          .grp 2 (.starL rxAny), Rx.str ")", .star rxSpace,
          .grp 3 (.star rxAny), .eos]

/-- `BaseParser.extract_parenthetical`. -/
def extract_parenthetical (text : List Char) : List Char × Option (List Char) :=
  match parentheticalRx.search text with
  | some (_, _, caps) =>
    (pyStrip ((capGet caps 1).getD [] ++ ' ' :: (capGet caps 3).getD []),
     capGet caps 2)
  | none => (pyStrip text, none)

end BaseParser

/-! ## `parsers/usage_parser.py` (`UsageParser`) and the converter's
`_parse_usage` -/

/-- The tagged usage variants produced by the two usage parsers (Python
returns dictionaries keyed by `type`). -/
inductive Usage where
  | recharge (value : Option Int) (rangeVals : Option (List Int))
  | perDay (times : Int) (timesInLair : Option Int)
  | perShortRest (times : Int)
  | perLongRest (times : Int)
  | costs (value : Int)
  | other (description : String)
deriving Repr, DecidableEq

/-- `r'recharge (\d+)(?:-(\d+))?'`. -/
def rechargeRx : Rx :=
  Rx.cat [Rx.str "recharge ", .grp 1 (.plus rxDigit),
          .opt (Rx.cat [Rx.str "-", .grp 2 (.plus rxDigit)])]

/-- `r'(\d+)/day(?:,? or (\d+)/day in lair)?'`. -/
def perDayLairRx : Rx :=
  Rx.cat [.grp 1 (.plus rxDigit), Rx.str "/day",
          .opt (Rx.cat [.opt (Rx.str ","), Rx.str " or ",
                        .grp 2 (.plus rxDigit), Rx.str "/day in lair"])]

/-- `r'(\d+)/day'` (the converter variant without the lair clause). -/
def perDayRx : Rx := Rx.cat [.grp 1 (.plus rxDigit), Rx.str "/day"]

/-- `r'(\d+)/short rest'`. -/
def perShortRestRx : Rx := Rx.cat [.grp 1 (.plus rxDigit), Rx.str "/short rest"]

/-- `r'(\d+)/long rest'`. -/
def perLongRestRx : Rx := Rx.cat [.grp 1 (.plus rxDigit), Rx.str "/long rest"]

/-- `r'costs? (\d+)'`. -/
def costsRx : Rx :=
  Rx.cat [Rx.str "cost", .opt (Rx.str "s"), Rx.str " ", .grp 1 (.plus rxDigit)]

/-- `r'\((.*?)\)'`. -/
def otherUsageRx : Rx := Rx.cat [Rx.str "(", .grp 1 (.starL rxAny), Rx.str ")"]

/-- Python `list(range(a, b))` on ints (used for the recharge range). -/
def pyRangeList (a b : Int) : List Int :=
  (List.range (max (b - a) 0).toNat).map (fun i => a + i)

/-- Group `n` of a search result, as an integer (the patterns guarantee the
capture is `\d+`). -/
def capNat (caps : Caps) (n : Nat) : Option Int :=
  (capGet caps n).map (fun g => (digitsToNat g : Int))

namespace UsageParser

/-- `UsageParser.parse_usage`. -/
def parse_usage (description : String) : Option Usage :=
  let low := pyLower description.data
  match rechargeRx.search low with
  | some (_, _, caps) =>
    let start := (capNat caps 1).getD 0
    let stop := (capNat caps 2).getD start
    some (.recharge (if start = stop then some start else none)
                    (if start ≠ stop then some (pyRangeList start (stop + 1)) else none))
  | none =>
  match perDayLairRx.search low with
  | some (_, _, caps) =>
    some (.perDay ((capNat caps 1).getD 0) (capNat caps 2))
  | none =>
  match perShortRestRx.search low with
  | some (_, _, caps) => some (.perShortRest ((capNat caps 1).getD 0))
  | none =>
  match perLongRestRx.search low with
  | some (_, _, caps) => some (.perLongRest ((capNat caps 1).getD 0))
  | none =>
  match costsRx.search low with
  | some (_, _, caps) => some (.costs ((capNat caps 1).getD 0))
  | none =>
  match otherUsageRx.search low with
  | some (_, _, caps) => some (.other ((capGet caps 1).getD []).asString)
  | none => none

end UsageParser

/-- `DocxStatBlockConverter._parse_usage` (the converter's own copy: same
patterns but a plain `(\d+)/day` per-day clause and no `other` fallback). -/
def convParseUsage (description : String) : Option Usage :=
  let low := pyLower description.data
  match rechargeRx.search low with
  | some (_, _, caps) =>
    let start := (capNat caps 1).getD 0
    let stop := (capNat caps 2).getD start
    some (.recharge (if start = stop then some start else none)
                    (if start ≠ stop then some (pyRangeList start (stop + 1)) else none))
  | none =>
  match perDayRx.search low with
  | some (_, _, caps) => some (.perDay ((capNat caps 1).getD 0) none)
  | none =>
  match perShortRestRx.search low with
  | some (_, _, caps) => some (.perShortRest ((capNat caps 1).getD 0))
  | none =>
  match perLongRestRx.search low with
  | some (_, _, caps) => some (.perLongRest ((capNat caps 1).getD 0))
  | none =>
  match costsRx.search low with
  | some (_, _, caps) => some (.costs ((capNat caps 1).getD 0))
  | none => none

/-! ## `parsers/actions_parser.py` (`ActionsParser`) and the attack/damage
parsing inlined in `DocxStatBlockConverter._process_actions` -/

/-- The `Attack` shape built by both attack parsers (and validated by
`validators/action_validators.py`).  `weapon_type` carries the enum value
string (`"weapon"` / `"spell"`). -/
structure Attack where
  weapon_type : String
  is_melee : Bool
  is_ranged : Bool
  bonus : Int
  ability_used : Option String
  magical_bonus : Option Int
  reach : Option String
  range : Option String
deriving Repr, DecidableEq

/-- The `hit` dictionary produced by `parse_damage`. -/
structure DamageRoll where
  damage : String
  damage_type : String
  damage_two_handed : Option String
  additional_effects : Option String
deriving Repr, DecidableEq

/-- `(?:\d+/\d+|\d+)` (a distance). -/
def rxDist : Rx :=
  Rx.alts [Rx.cat [.plus rxDigit, Rx.str "/", .plus rxDigit], .plus rxDigit]

/-- `([+-]\d+)` as group `n`. -/
def rxSignedGrp (n : Nat) : Rx := .grp n (Rx.cat [rxOneOf "+-", .plus rxDigit])

namespace ActionsParser

/-- The attack pattern of `ActionsParser.parse_attack`:
`r'(?:Melee or Ranged|(?:Melee|Ranged)) '`
`r'(?:Weapon|Spell )?Attack(?: Roll)?:\s*([+-]\d+)(?: to hit)?'`
`r'(?:, (?:reach|range) ((?:\d+/\d+|\d+) ft\.))?'`
`r'(?:or (?:reach|range) ((?:\d+/\d+|\d+) ft\.))?'`.
Note that the first optional group alternates `Weapon` (no trailing space)
with `Spell ` (trailing space), exactly as in the source. -/
def attackRx : Rx :=
  Rx.cat [Rx.alts [Rx.str "Melee or Ranged", Rx.alts [Rx.str "Melee", Rx.str "Ranged"]],
          Rx.str " ",
          .opt (Rx.alts [Rx.str "Weapon", Rx.str "Spell "]),
          Rx.str "Attack", .opt (Rx.str " Roll"), Rx.str ":",
          .star rxSpace, rxSignedGrp 1, .opt (Rx.str " to hit"),
          .opt (Rx.cat [Rx.str ", ", Rx.alts [Rx.str "reach", Rx.str "range"],
                        Rx.str " ", .grp 2 (Rx.cat [rxDist, Rx.str " ft."])]),
          .opt (Rx.cat [Rx.str "or ", Rx.alts [Rx.str "reach", Rx.str "range"],
                        Rx.str " ", .grp 3 (Rx.cat [rxDist, Rx.str " ft."])])]

/-- `r'(?:with a )?([+-]\d+) magical'` (searched on the lower-cased text). -/
def magicRx : Rx :=
  Rx.cat [.opt (Rx.str "with a "), rxSignedGrp 1, Rx.str " magical"]

/-- `ActionsParser.parse_attack`. -/
def parse_attack (text : String) : Option Attack :=
  match attackRx.search text.data with
  | none => none
  | some (_, _, caps) =>
    let low := pyLower text.data
    let is_melee := containsSub "melee".data low
    let is_ranged := containsSub "range".data low
    some
      { weapon_type := if containsSub "Spell Attack".data text.data then "spell" else "weapon"
        is_melee := is_melee
        is_ranged := is_ranged
        bonus := signedToInt ((capGet caps 1).getD [])
        ability_used := none
        magical_bonus :=
          (magicRx.search low).map (fun r => signedToInt ((capGet r.2.2 1).getD []))
        reach := if is_melee then (capGet caps 2).map List.asString else none
        range :=
          if is_ranged then
            match capGet caps 3 with
            | some g => some g.asString
            | none => (capGet caps 2).map List.asString
          else none }

/-- `[\dd+\s-]` (the damage-dice class). -/
def diceCls : Rx :=
  .cls (fun c => c.isDigit || c = 'd' || c = '+' || pyIsSpace c || c = '-')

/-- `[\w\s,]` (the damage-type class). -/
def typeCls : Rx :=
  .cls (fun c => c.isAlphanum || c = '_' || pyIsSpace c || c = ',')

/-- `r'Hit:\s*\d+\s*\(([\dd+\s-]+)\)\s*([\w\s,]+)\s*damage'`. -/
def damageRx : Rx :=
  Rx.cat [Rx.str "Hit:", .star rxSpace, .plus rxDigit, .star rxSpace,
          Rx.str "(", .grp 1 (.plus diceCls), Rx.str ")", .star rxSpace,
          .grp 2 (.plus typeCls), .star rxSpace, Rx.str "damage"]

/-- `r'or\s*\d+\s*\(([\dd+\s-]+)\)\s*([\w\s,]+)\s*damage when used with two hands'`. -/
def twoHandedRx : Rx :=
  Rx.cat [Rx.str "or", .star rxSpace, .plus rxDigit, .star rxSpace,
          Rx.str "(", .grp 1 (.plus diceCls), Rx.str ")", .star rxSpace,
          .grp 2 (.plus typeCls), .star rxSpace,
          Rx.str "damage when used with two hands"]

/-- `r'Hit:\s*(\d+)\s*([\w\s,]+)\s*damage'` (the simple format). -/
def simpleDamageRx : Rx :=
  Rx.cat [Rx.str "Hit:", .star rxSpace, .grp 1 (.plus rxDigit), .star rxSpace,
          .grp 2 (.plus typeCls), .star rxSpace, Rx.str "damage"]

/-- `r'damage(?:(?:,|\.) (.+?)(?:$|\.(?:\s|$)))'`. -/
def effectsRx : Rx :=
  Rx.cat [Rx.str "damage", Rx.alts [Rx.str ",", Rx.str "."], Rx.str " ",
          .grp 1 (.plusL rxAny),
          Rx.alts [.eos, Rx.cat [Rx.str ".", Rx.alts [rxSpace, .eos]]]]

/-- `ActionsParser.parse_damage`. -/
def parse_damage (text : String) : Option DamageRoll :=
  let d := damageRx.search text.data
  let th := twoHandedRx.search text.data
  let sd := simpleDamageRx.search text.data
  match d, sd with
  | none, none => none
  | _, _ =>
    let caps :=
      match d with
      | some (_, _, caps) => caps
      | none => match sd with
                | some (_, _, caps) => caps
                | none => []
    some
      { damage := (pyStrip ((capGet caps 1).getD [])).asString
        damage_type := (pyStrip ((capGet caps 2).getD [])).asString
        damage_two_handed :=
          th.map (fun r => (pyStrip ((capGet r.2.2 1).getD [])).asString)
        additional_effects :=
          (effectsRx.search text.data).map
            (fun r => (pyStrip ((capGet r.2.2 1).getD [])).asString) }

/-- The action dictionary built by `ActionsParser.parse_action`. -/
structure Action where
  name : String
  description : String
  attack : Option Attack
  hit : Option DamageRoll
  usage : Option Usage
deriving Repr, DecidableEq

/-- `ActionsParser.parse_action` (with an explicit `name`; when `name` is
absent the source first applies `split_name_description`). -/
def parse_action (text : String) (name : Option String) : Action :=
  let (name, text) :=
    match name with
    | some n => (n.data, text.data)
    | none => BaseParser.split_name_description text.data
  { name := (BaseParser.extract_parenthetical name).1.asString
    description := text.asString
    attack := parse_attack text.asString
    hit := parse_damage text.asString
    usage := UsageParser.parse_usage name.asString }

end ActionsParser

namespace DocxConverter

/-- The attack pattern inlined in `DocxStatBlockConverter._process_actions`
(lines 464-468): unlike `ActionsParser.attackRx` it reads
`(?:Weapon|Spell) Attack:\s*([+-]\d+) to hit` with the space before
`Attack` outside the alternation and a mandatory ` to hit`. -/
def convAttackRx : Rx :=
  Rx.cat [Rx.alts [Rx.str "Melee or Ranged", Rx.alts [Rx.str "Melee", Rx.str "Ranged"]],
          Rx.str " ",
          Rx.alts [Rx.str "Weapon", Rx.str "Spell"],
          Rx.str " Attack:",
          .star rxSpace, rxSignedGrp 1, Rx.str " to hit",
          .opt (Rx.cat [Rx.str ", ", Rx.alts [Rx.str "reach", Rx.str "range"],
                        Rx.str " ", .grp 2 (Rx.cat [rxDist, Rx.str " ft."])]),
          .opt (Rx.cat [Rx.str "or ", Rx.alts [Rx.str "reach", Rx.str "range"],
                        Rx.str " ", .grp 3 (Rx.cat [rxDist, Rx.str " ft."])])]

/-- The ability names under which `_process_abilities` stores the
creature's modifiers (line 359): the full names, never `str`/`dex`. -/
def convAbilityKeys : List String :=
  ["strength", "dexterity", "constitution", "intelligence", "wisdom", "charisma"]

/-- `DocxStatBlockConverter._process_actions`, attack construction
(lines 472-524).  `abilities` is `self.current_creature['abilities']` as an
association list from ability key to stored modifier (a missing key models
`KeyError`); `proficiency_bonus` is the `'proficiency_bonus'` entry of
`self.current_creature` — `none` when the key is absent (it is never
assigned anywhere in the class), `some v` when present, where
`v or 2` is Python truthiness.  For weapon attacks the source reads
`abilities['str']['modifier']`, `abilities['dex']['modifier']` and
`current_creature['proficiency_bonus']` in that order (lines 502-504), so
each lookup can raise before the reverse-engineering of `ability_used`
(magical bonuses 1-3 first, then the bare modifiers, preferring dexterity)
ever runs. -/
def convParseAttack (description : String) (abilities : List (String × Int))
    (proficiency_bonus : Option (Option Int)) : Except String (Option Attack) :=
  match convAttackRx.search description.data with
  | none => .ok none
  | some (_, _, caps) =>
    let low := pyLower description.data
    let is_melee := containsSub "melee".data low
    let is_ranged := containsSub "range".data low
    let weapon_type :=
      if containsSub "Spell Attack".data description.data then "spell" else "weapon"
    let bonus := signedToInt ((capGet caps 1).getD [])
    let base : Attack :=
      { weapon_type := weapon_type
        is_melee := is_melee
        is_ranged := is_ranged
        bonus := bonus
        ability_used := none
        magical_bonus :=
          (ActionsParser.magicRx.search low).map
            (fun r => signedToInt ((capGet r.2.2 1).getD []))
        reach := if is_melee then (capGet caps 2).map List.asString else none
        range :=
          if is_ranged then
            match capGet caps 3 with
            | some g => some g.asString
            | none => (capGet caps 2).map List.asString
          else none }
    if weapon_type = "weapon" then
      match (abilities.find? (fun p => p.1 = "str")).map (·.2) with
      | none => .error "KeyError: str"
      | some str_mod =>
        match (abilities.find? (fun p => p.1 = "dex")).map (·.2) with
        | none => .error "KeyError: dex"
        | some dex_mod =>
          match proficiency_bonus with
          | none => .error "KeyError: proficiency_bonus"
          | some pv =>
            let prof := match pv with
                        | some p => if p = 0 then 2 else p
                        | none => 2
            let inferred : Option (String × Int) :=
              ([1, 2, 3] : List Int).firstM (fun m =>
                if bonus = dex_mod + prof + m then some ("dex", m)
                else if bonus = str_mod + prof + m then some ("str", m)
                else none)
            match inferred with
            | some (ab, m) =>
              .ok (some ({ base with ability_used := some ab, magical_bonus := some m } : Attack))
            | none =>
              if bonus = dex_mod + prof then
                .ok (some ({ base with ability_used := some "dex" } : Attack))
              else
                .ok (some ({ base with ability_used := some "str" } : Attack))
    else
      .ok (some base)

end DocxConverter

/-! ## `validators/challenge_rating_validators.py` (`ChallengeRating`) -/

/-- A value of the pydantic field type `Union[float, str]` after coercion
(pydantic coerces `int` input to `float` for this union, so integer ratings
arrive as floats; floats are embedded as rationals — every float appearing
here is exactly representable). -/
inductive PyScalar where
  | s (v : String)
  | f (v : ℚ)
deriving Repr, DecidableEq

namespace ChallengeRating

/-- The numeric keys of the `CR_TO_XP` class dictionary: the Python `int`
keys `0, 1..30` (a `float` lookup such as `5.0` finds the `int` key `5`
because Python dict lookup uses numeric equality and hashing). -/
def crXpIntTable : List (Nat × Nat) :=
  [(0, 0), (1, 200), (2, 450), (3, 700), (4, 1100), (5, 1800),
   (6, 2300), (7, 2900), (8, 3900), (9, 5000), (10, 5900),
   (11, 7200), (12, 8400), (13, 10000), (14, 11500), (15, 13000),
   (16, 15000), (17, 18000), (18, 20000), (19, 22000), (20, 25000),
   (21, 33000), (22, 41000), (23, 50000), (24, 62000), (25, 75000),
   (26, 90000), (27, 105000), (28, 120000), (29, 135000), (30, 155000)]

/-- The string keys of the `CR_TO_XP` class dictionary (note that the
dictionary holds both the `int` key `0` with value `0` and the `str` key
`"0"` with value `10`). -/
def crXpStrTable : List (String × Nat) :=
  [("0", 10), ("1/8", 25), ("1/4", 50), ("1/2", 100)]

/-- `CR_TO_XP.get(key)` for a numeric key. -/
def crXpOfNum (q : ℚ) : Option Nat :=
  (crXpIntTable.find? (fun p => (p.1 : ℚ) = q)).map (·.2)

/-- `CR_TO_XP.get(key)` for a string key. -/
def crXpOfStr (s : String) : Option Nat :=
  (crXpStrTable.find? (fun p => p.1 = s)).map (·.2)

/-- Does `Fraction(v)` succeed for the strings reaching `validate_rating`'s
fraction branch (which all contain `/`)?  `Fraction` accepts
`[sign]digits/digits`; a zero denominator raises `ZeroDivisionError`, which
`validate_rating` does not catch, so it is modelled as a distinct error by
the caller.  Strings of other shapes raise `ValueError`. -/
def fractionParts (v : List Char) : Option (List Char × List Char) :=
  match pySplitOn ['/'] (pyStrip v) with
  | [a, b] =>
    let a' := match a with
              | '-' :: rest => rest
              | '+' :: rest => rest
              | rest => rest
    if a' ≠ [] && a'.all Char.isDigit && b ≠ [] && b.all Char.isDigit then
      some (a', b)
    else none
  | _ => none

/-- Does `float(v)` succeed (decimal forms only, which covers every string
reaching this check in the claims)?  The parsed value is also returned. -/
def pyFloat (v : List Char) : Option ℚ :=
  let t := pyStrip v
  let (sign, body) :=
    match t with
    | '-' :: rest => ((-1 : ℚ), rest)
    | '+' :: rest => ((1 : ℚ), rest)
    | rest => ((1 : ℚ), rest)
  match pySplitOn ['.'] body with
  | [a] =>
    if a ≠ [] && a.all Char.isDigit then some (sign * digitsToNat a) else none
  | [a, b] =>
    if (a ≠ [] || b ≠ []) && a.all Char.isDigit && b.all Char.isDigit then
      some (sign * ((digitsToNat a : ℚ) + (digitsToNat b : ℚ) / ((10 : ℚ) ^ b.length)))
    else none
  | _ => none

/-- `ChallengeRating.validate_rating`. -/
def validate_rating (v : PyScalar) : Except String PyScalar :=
  match v with
  | .s str =>
    if containsSub ['/'] str.data then
      match fractionParts str.data with
      | some (_, b) =>
        if digitsToNat b = 0 then .error "ZeroDivisionError" else .ok v
      | none => .error ("Invalid CR fraction: " ++ str)
    else
      match pyFloat str.data with
      | some _ => .ok v
      | none => .error ("Invalid CR value: " ++ str)
  | .f q =>
    if 0 ≤ q ∧ q ≤ 30 then .ok v else .error "CR must be between 0 and 30"

/-- `ChallengeRating.validate_xp`: the lookup key is `str(rating)` when the
rating is a `str` (or `int`, which pydantic has already coerced away) and
`float(rating)` otherwise. -/
def validate_xp (rating : PyScalar) (v : Int) : Except String Int :=
  let expected :=
    match rating with
    | .s str => crXpOfStr str
    | .f q => crXpOfNum q
  match expected with
  | none => .error "Invalid CR value for XP lookup"
  | some e =>
    if v ≠ (e : Int) then .error "XP value does not match expected value"
    else .ok v

/-- Validation of a `ChallengeRating(rating=..., xp=...)` instance: pydantic
runs `validate_rating` first (field order), then `validate_xp` with the
validated rating in `info.data`. -/
def accepts (rating : PyScalar) (xp : Int) : Except String Unit := do
  let r ← validate_rating rating
  let _ ← validate_xp r xp
  .ok ()

end ChallengeRating

/-- Modelled from the spec: the canonical CR→XP table used by the assembly
lookup `CR_TO_XP.get(str(rating), 0)` in `CoreStatsParser.
parse_challenge_rating` and `DocxStatBlockConverter._get_xp_for_cr`.  The
module `dnd_constants` that defines this table is not part of the
repository snapshot; the spec (§3, §4.2, §8.1) describes it as the
canonical table keyed by the rating (with the XP printed in the source text
discarded), so it is modelled as the canonical values keyed by the string
form the parser produces. -/
def dndConstantsCrToXp (rating : String) : Option Nat :=
  let table : List (String × Nat) :=
    [("1/8", 25), ("1/4", 50), ("1/2", 100)] ++
      ChallengeRating.crXpIntTable.map (fun p => (toString p.1, p.2))
  (table.find? (fun p => p.1 = rating)).map (·.2)

/-- `CoreStatsParser.parse_challenge_rating`, XP assignment: the regex
captures the textual XP in group 2 but the result discards it and uses the
table lookup `CR_TO_XP.get(str(rating), 0)`. -/
def parseChallengeRatingXp (rating : String) : Nat :=
  (dndConstantsCrToXp rating).getD 0

/-! ## `validators/ability_validators.py" and
`StatBlockValidator.validate_proficiency_bonus` -/

/-- `calculate_proficiency_bonus(cr)`.  The annotation says `cr: str`; its
body evaluates `'/' not in cr`, which raises `TypeError` when a float is
passed (as `validate_proficiency_bonus` does). -/
def calculate_proficiency_bonus (cr : PyScalar) : Except String Int :=
  match cr with
  | .f _ => .error "TypeError: argument of type float is not iterable"
  | .s s =>
    let ratingE : Except String Int :=
      if containsSub ['/'] s.data then .ok 1
      else
        match pyInt s.data with
        | some n => .ok n
        | none => .error ("ValueError: invalid literal for int: " ++ s)
    ratingE.bind fun rating =>
      if rating < 1 then .ok 2 else .ok (2 + (rating - 1) / 4)

/-- `StatBlockValidator.validate_proficiency_bonus` (lines 146-165): the
rating taken from the validated challenge rating is converted to a float
(fraction strings via `int(num)/int(denom)`, other strings via `float`)
and then passed to `calculate_proficiency_bonus`. -/
def validate_proficiency_bonus (rating : PyScalar) (v : Option Int) :
    Except String Int := do
  let r : ℚ ←
    match rating with
    | .s s =>
      if containsSub ['/'] s.data then
        match pySplitOn ['/'] s.data with
        | [a, b] =>
          match pyInt a, pyInt b with
          | some na, some nb =>
            if nb = 0 then .error "ZeroDivisionError"
            else .ok ((na : ℚ) / (nb : ℚ))
          | _, _ => .error "ValueError"
        | _ => .error "ValueError: unpacking"
      else
        match ChallengeRating.pyFloat s.data with
        | some q => .ok q
        | none => .error "ValueError"
    | .f q => pure q
  let expected ← calculate_proficiency_bonus (.f r)
  match v with
  | some b =>
    if b ≠ expected then .error "Proficiency bonus does not match CR"
    else .ok expected
  | none => .ok expected

/-! ## `validators/spellcasting_validators.py` (`SpellcastingTrait`) -/

/-- `SpellcastingType` enum values. -/
inductive SpellcastingType where
  | innate | regular | pactMagic
deriving Repr, DecidableEq

/-- `SpellcastingAbility` enum values. -/
inductive SpellcastingAbility where
  | intelligence | wisdom | charisma
deriving Repr, DecidableEq

/-- The scalar fields of a `SpellcastingTrait` instance, in pydantic field
declaration order: `type`, `ability`, `dc`, `attack_bonus`,
`base_modifier` (the spell-list fields have no cross-field validators). -/
structure SpellcastingTraitInput where
  type : SpellcastingType
  ability : SpellcastingAbility
  dc : Int
  attack_bonus : Int
  base_modifier : Int
deriving Repr, DecidableEq

namespace SpellcastingTrait

/-- `SpellcastingTrait.validate_dc`, with the contents of `info.data` made
explicit: `dataBaseModifier` is `info.data.get('base_modifier')` and
`dataProficiencyBonus` is `info.data.get('proficiency_bonus')` (whose
absence makes the source default to `2`). -/
def validate_dc (v : Int) (dataBaseModifier : Option Int)
    (dataProficiencyBonus : Option Int) : Except String Int :=
  if ¬(0 ≤ v ∧ v ≤ 30) then .error "Spell save DC must be between 0 and 30"
  else
    match dataBaseModifier with
    | some m =>
      let proficiency := dataProficiencyBonus.getD 2
      if v ≠ 8 + m + proficiency then
        .error "DC does not match calculated DC"
      else .ok v
    | none => .ok v

/-- `SpellcastingTrait.validate_attack_bonus` (same `info.data` convention
as `validate_dc`). -/
def validate_attack_bonus (v : Int) (dataBaseModifier : Option Int)
    (dataProficiencyBonus : Option Int) : Except String Int :=
  if ¬(0 ≤ v ∧ v ≤ 30) then .error "Spell attack bonus must be between 0 and 30"
  else
    match dataBaseModifier with
    | some m =>
      let proficiency := dataProficiencyBonus.getD 2
      if v ≠ m + proficiency then
        .error "Attack bonus does not match calculated bonus"
      else .ok v
    | none => .ok v

/-- `SpellcastingTrait.validate_base_modifier`. -/
def validate_base_modifier (v : Int) : Except String Int :=
  if ¬(-5 ≤ v ∧ v ≤ 10) then .error "Base modifier must be between -5 and +10"
  else .ok v

/-- Validation of a `SpellcastingTrait` instance.  Validators run in field
declaration order, so when `dc` and `attack_bonus` are validated the
`base_modifier` field has not been validated yet and is absent from
`info.data`; the model declares no `proficiency_bonus` field at all, so
that lookup is always absent. -/
def accepts (t : SpellcastingTraitInput) : Except String Unit := do
  let _ ← validate_dc t.dc none none
  let _ ← validate_attack_bonus t.attack_bonus none none
  let _ ← validate_base_modifier t.base_modifier
  .ok ()

end SpellcastingTrait

/-! ## `validators/action_validators.py` (`Attack`) -/

namespace AttackValidators

/-- `Attack.validate_attack_types` as it runs on the `is_melee` field: at
that point `info.data` contains only `weapon_type`, so both
`info.data.get('is_melee', False)` and `info.data.get('is_ranged', False)`
return `False` and the check reduces to `is_melee` itself. -/
def validateIsMelee (isMelee : Bool) : Except String Bool :=
  if !isMelee && !false && !false then
    .error "Attack must be either melee, ranged, or both"
  else .ok isMelee

/-- `Attack.validate_attack_types` as it runs on the `is_ranged` field:
`info.data` now carries the validated `is_melee`. -/
def validateIsRanged (isRanged : Bool) (dataIsMelee : Bool) : Except String Bool :=
  if !isRanged && !dataIsMelee && !false then
    .error "Attack must be either melee, ranged, or both"
  else .ok isRanged

/-- `Attack.validate_magical_bonus`. -/
def validateMagicalBonus (v : Option Int) : Except String (Option Int) :=
  match v with
  | some m =>
    if ¬(0 ≤ m ∧ m ≤ 3) then .error "Magical bonus must be between 0 and 3"
    else .ok v
  | none => .ok v

/-- `Attack.validate_reach`: `if v and not info.data.get('is_melee', False)`
— Python truthiness, so `None` and the empty string both pass. -/
def validateReach (v : Option String) (dataIsMelee : Bool) :
    Except String (Option String) :=
  match v with
  | some s =>
    if s ≠ "" && !dataIsMelee then
      .error "Reach can only be specified for melee attacks"
    else .ok v
  | none => .ok v

/-- `Attack.validate_range` (same truthiness as `validate_reach`). -/
def validateRange (v : Option String) (dataIsRanged : Bool) :
    Except String (Option String) :=
  match v with
  | some s =>
    if s ≠ "" && !dataIsRanged then
      .error "Range can only be specified for ranged attacks"
    else .ok v
  | none => .ok v

/-- Validation of an `Attack` instance, with the field validators applied
in field declaration order (`weapon_type`, `is_melee`, `is_ranged`,
`bonus`, `ability_used`, `magical_bonus`, `reach`, `range`); the first
raise rejects the instance. -/
def accepts (a : Attack) : Except String Unit :=
  match validateIsMelee a.is_melee with
  | .error e => .error e
  | .ok m =>
    match validateIsRanged a.is_ranged m with
    | .error e => .error e
    | .ok r =>
      match validateMagicalBonus a.magical_bonus with
      | .error e => .error e
      | .ok _ =>
        match validateReach a.reach m with
        | .error e => .error e
        | .ok _ =>
          match validateRange a.range r with
          | .error e => .error e
          | .ok _ => .ok ()

end AttackValidators

/-! ## `parsers/core_stats_parser.py` (`CoreStatsParser.parse_speed`) -/

/-- A value of the heterogeneous speed dictionary. -/
inductive SpeedVal where
  | num (n : Int)
  | flag (b : Bool)
  | strv (s : String)
deriving Repr, DecidableEq

/-- An insertion-ordered Python dictionary with string keys. -/
abbrev PyDict := List (String × SpeedVal)

/-- `d[k] = v`: update in place if the key exists, else append. -/
def dictSet (d : PyDict) (k : String) (v : SpeedVal) : PyDict :=
  if d.any (fun p => p.1 = k) then
    d.map (fun p => if p.1 = k then (k, v) else p)
  else d ++ [(k, v)]

/-- `d.get(k)`. -/
def dictGet (d : PyDict) (k : String) : Option SpeedVal :=
  (d.find? (fun p => p.1 = k)).map (·.2)

namespace CoreStatsParser

/-- `r"(?:(\w+)\s+)?(\d+)\s*ft\.?(.*)"` (applied with `re.match`). -/
def speedRx : Rx :=
  Rx.cat [.opt (Rx.cat [.grp 1 (.plus rxWord), .plus rxSpace]),
          .grp 2 (.plus rxDigit), .star rxSpace,
          Rx.str "ft", .opt (Rx.str "."), .grp 3 (.star rxAny)]

/-- One iteration of the `parse_speed` loop: process one `", "`-separated
part, threading the speeds dictionary and the `special` accumulator. -/
def speedStep (acc : PyDict × List (List Char)) (part : List Char) :
    PyDict × List (List Char) :=
  match speedRx.matchAt part with
  | none => acc
  | some (_, caps) =>
    let speed_type := (capGet caps 1).getD "walk".data
    let speeds :=
      dictSet acc.1 (pyLower speed_type).asString
        (.num (digitsToNat ((capGet caps 2).getD []) : Int))
    let extra := (capGet caps 3).getD []
    if extra ≠ [] then
      if containsSub "hover".data (pyLower extra) then
        (dictSet speeds "hover" (.flag true), acc.2)
      else
        (speeds, acc.2 ++ [pyStrip extra])
    else (speeds, acc.2)

/-- Python `'; '.join(s.strip() for s in special if s.strip())`. -/
def joinSpecial (special : List (List Char)) : List Char :=
  match (special.filter (fun s => pyStrip s ≠ [])).map pyStrip with
  | [] => []
  | s :: ss => ss.foldl (fun acc t => acc ++ "; ".data ++ t) s

/-- `CoreStatsParser.parse_speed`. -/
def parse_speed (text : String) : PyDict :=
  let speed_text :=
    pyStrip (pyReplace "Speed".data [] (BaseParser.normalize_text text.data))
  let speed_parts := pySplitOn ", ".data speed_text
  let (speeds, special) := speed_parts.foldl speedStep ([], [])
  if special ≠ [] then
    dictSet speeds "special" (.strv (joinSpecial special).asString)
  else speeds

end CoreStatsParser

/-! ## `parsers/legendary_actions_parser.py` and
`DocxStatBlockConverter._process_legendary_actions` -/

/-- One legendary action entry. -/
structure LegendaryAction where
  name : String
  description : String
  cost : Int
  usage : Option Usage
deriving Repr, DecidableEq

/-- The legendary-actions section. -/
structure LegendaryActions where
  slots_per_round : Int
  description : String
  actions : List LegendaryAction
deriving Repr, DecidableEq

/-- `r"can take (\d+) legendary actions?"`. -/
def slotsRx : Rx :=
  Rx.cat [Rx.str "can take ", .grp 1 (.plus rxDigit),
          Rx.str " legendary action", .opt (Rx.str "s")]

/-- `r"\(costs (\d+) actions\)"` (searched on the lower-cased name). -/
def costsActionsRx : Rx :=
  Rx.cat [Rx.str "(costs ", .grp 1 (.plus rxDigit), Rx.str " actions)"]

/-- `r"\(costs \d+ actions\)"` as used by `re.sub` on the original-case
name (the pattern itself is lower case, so the substitution is
case-sensitive even though the search above is done on the lowered name). -/
def costsActionsSubRx : Rx :=
  Rx.cat [Rx.str "(costs ", .plus rxDigit, Rx.str " actions)"]

namespace LegendaryActionsParser

/-- One entry of `LegendaryActionsParser.parse_legendary_actions`
(the body of the `for para in paragraphs` loop): the paragraph is split
into title and description, `extract_parenthetical` is applied to the
title, and only then is the cost parenthetical searched for. -/
def parseEntry (para : String) : LegendaryAction :=
  let (title, description) := BaseParser.split_name_description para.data
  let (name, _) := BaseParser.extract_parenthetical title
  let cost :=
    match costsActionsRx.search (pyLower name) with
    | some (_, _, caps) => ((capNat caps 1).getD 0)
    | none => 1
  let name := rxSubAll costsActionsSubRx [] name
  { name := (pyStrip name).asString
    description := description.asString
    cost := cost
    usage := UsageParser.parse_usage title.asString }

/-- `LegendaryActionsParser.parse_legendary_actions`. -/
def parse_legendary_actions (text : String) (paragraphs : List String) :
    LegendaryActions :=
  let slots :=
    match slotsRx.search (BaseParser.normalize_text text.data) with
    | some (_, _, caps) => (capNat caps 1).getD 0
    | none => 3
  { slots_per_round := slots
    description := text
    actions := paragraphs.map parseEntry }

end LegendaryActionsParser

namespace DocxConverter

/-- One entry of `DocxStatBlockConverter._process_legendary_actions`
(lines 583-596), after the bold-run split has produced `name` and
`description`: the cost is searched on the lower-cased name and the
parenthetical is stripped from the original-case name with a
case-sensitive `re.sub`; usage is parsed from the description with the
converter's `_parse_usage`. -/
def legendaryEntry (name description : String) : LegendaryAction :=
  let cost :=
    match costsActionsRx.search (pyLower name.data) with
    | some (_, _, caps) => ((capNat caps 1).getD 0)
    | none => 1
  let name' := rxSubAll costsActionsSubRx [] name.data
  { name := (pyStrip name').asString
    description := description
    cost := cost
    usage := convParseUsage description }

end DocxConverter

/-! ## `parsers/spellcasting_parser.py` (`SpellcastingParser`) -/

namespace SpellcastingParser

/-- `r'spell save DC (\d+)'`. -/
def dcRx : Rx := Rx.cat [Rx.str "spell save DC ", .grp 1 (.plus rxDigit)]

/-- `r'([+-]\d+) to hit with spell attacks'`. -/
def spellAttackRx : Rx :=
  Rx.cat [rxSignedGrp 1, Rx.str " to hit with spell attacks"]

/-- `r'spellcasting ability (?:modifier )?is ([+-]\d+)'`. -/
def modifierRx : Rx :=
  Rx.cat [Rx.str "spellcasting ability ", .opt (Rx.str "modifier "),
          Rx.str "is ", rxSignedGrp 1]

/-- `SpellcastingParser._parse_modifiers`: `(dc, attack_bonus,
base_modifier)` with defaults `10`, `0`, `0`. -/
def parseModifiers (text : String) : Int × Int × Int :=
  let dc := match dcRx.search text.data with
            | some (_, _, caps) => (capNat caps 1).getD 10
            | none => 10
  let attack_bonus :=
    match spellAttackRx.search text.data with
    | some (_, _, caps) => signedToInt ((capGet caps 1).getD [])
    | none => 0
  let base_modifier :=
    match modifierRx.search text.data with
    | some (_, _, caps) => signedToInt ((capGet caps 1).getD [])
    | none => 0
  (dc, attack_bonus, base_modifier)

/-- `SpellcastingParser._parse_ability`: first keyword found among
`intelligence`, `wisdom`, `charisma` (the `ABILITY_PATTERNS` dict iterates
in insertion order), defaulting to Wisdom; the parser stores the enum value
string. -/
def parseAbility (text : String) : String :=
  let low := pyLower text.data
  if containsSub "intelligence".data low then "Intelligence"
  else if containsSub "wisdom".data low then "Wisdom"
  else if containsSub "charisma".data low then "Charisma"
  else "Wisdom"

/-- The creature's `abilities` dictionary: ability name to the inner
dictionary's optional `modifier` entry (`abilities[k]` raises `KeyError`
when `k` is absent; `.get('modifier')` yields `None` when the inner key is
absent). -/
abbrev Abilities := List (String × Option Int)

/-- `abilities[spellcasting_data['ability'].lower()].get('modifier')`:
`none` models the `KeyError` of a missing ability, `some none` a missing
`modifier` entry. -/
def storedModifier (text : String) (abilities : Abilities) : Option (Option Int) :=
  (abilities.find? (fun p => p.1 = (pyLower (parseAbility text).data).asString)).map (·.2)

/-- The base-modifier resolution of
`SpellcastingParser.parse_spellcasting_trait` (lines 31-41): take the
parsed modifiers; replace a falsy (`0`) base modifier by the stored
modifier of the detected ability; raise `ValueError` when that too is falsy
(`0` or `None`); `KeyError` when the ability itself is missing. -/
def resolveModifiers (text : String) (abilities : Abilities) :
    Except String (Int × Int × Int) :=
  let (dc, attack_bonus, base_modifier) := parseModifiers text
  let base_modifierE : Except String Int :=
    if base_modifier ≠ 0 then .ok base_modifier
    else
      match storedModifier text abilities with
      | none => .error ("KeyError: " ++ (pyLower (parseAbility text).data).asString)
      | some stored =>
        match stored with
        | some m =>
          if m ≠ 0 then .ok m
          else .error "Spellcasting ability modifier not found"
        | none => .error "Spellcasting ability modifier not found"
  base_modifierE.map (fun m => (dc, attack_bonus, m))

end SpellcastingParser

/-! ## Claim theorems -/

/-- The entry of §8.7 of the spec: leading bold name `Bite`, description
`Melee Weapon Attack: +5 to hit, reach 5 ft. Hit: 7 (1d8+3) piercing
damage.`. -/
def biteText : String :=
  "Melee Weapon Attack: +5 to hit, reach 5 ft. Hit: 7 (1d8+3) piercing damage."

/-- A spellcasting trait whose explicit modifier phrase reads `+0`. -/
def innateZeroText : String :=
  "Innate Spellcasting. Its spellcasting ability modifier is +0. It can cast the following spells."

/-- C2: on the canonical Bite entry the claim requires the Action Parser to
produce an attack with weapon_type `weapon`, `is_melee`, bonus 5, reach
`5 ft.` and a hit of `1d8+3` piercing.  `ActionsParser.parse_attack`
returns no attack at all: its pattern alternates `Weapon` (without a
trailing space) with `Spell ` before the literal `Attack`, so the phrase
`Melee Weapon Attack:` never matches; the name and hit parts behave as
claimed.  The attack pattern inlined in
`DocxStatBlockConverter._process_actions` — with the space placed
correctly — does match and captures the claimed bonus `+5` and reach
`5 ft.`, which identifies the missing space as a slip; but that converter
path cannot produce the claimed attack either: with the abilities stored
under the full names of line 359 and no `proficiency_bonus` entry, its
weapon-ability inference raises `KeyError` at `abilities['str']`
(line 502) on every weapon attack. -/
theorem bite_attack_parse_results :
    ActionsParser.parse_attack biteText = none ∧
    ActionsParser.parse_damage biteText =
      some { damage := "1d8+3", damage_type := "piercing",
             damage_two_handed := none, additional_effects := none } ∧
    ActionsParser.parse_action biteText (some "Bite") =
      { name := "Bite", description := biteText, attack := none,
        hit := some { damage := "1d8+3", damage_type := "piercing",
                      damage_two_handed := none, additional_effects := none },
        usage := none } ∧
    (DocxConverter.convAttackRx.search biteText.data).map
      (fun r => ((capGet r.2.2 1).map List.asString,
                 (capGet r.2.2 2).map List.asString,
                 (capGet r.2.2 3).map List.asString)) =
      some (some "+5", some "5 ft.", none) ∧
    DocxConverter.convAbilityKeys.contains "str" = false ∧
    DocxConverter.convParseAttack biteText
      (DocxConverter.convAbilityKeys.zip [3, -1, 1, 0, 1, 0]) none =
      .error "KeyError: str" := by
  refine ⟨by decide, by decide, by decide, by decide, by decide, by decide⟩

/-- C1: the XP table and validation of `ChallengeRating`.  The table
documents 1800 XP for CR 5 (and the spec-modelled assembly table agrees),
fractional string ratings and float ratings validate against their table
values, and ratings outside the table are rejected — but a rating passed
as the numeric string `"5"`, the exact form `parse_challenge_rating`
produces, is looked up with the string key `"5"` while the table keys the
integer ratings as Python ints, so validation rejects the documented XP
1800 (and every other XP) for it.  The table also disagrees with itself on
CR 0: the int key `0` maps to 0 XP while the string key `"0"` maps to
10 XP. -/
theorem cr_xp_lookup_and_validation :
    ChallengeRating.crXpOfNum 5 = some 1800 ∧
    dndConstantsCrToXp "5" = some 1800 ∧
    ChallengeRating.accepts (.s "5") 1800 =
      .error "Invalid CR value for XP lookup" ∧
    ChallengeRating.accepts (.f 5) 1800 = .ok () ∧
    ChallengeRating.accepts (.s "1/8") 25 = .ok () ∧
    ChallengeRating.accepts (.s "1/4") 50 = .ok () ∧
    ChallengeRating.accepts (.s "1/2") 100 = .ok () ∧
    ChallengeRating.accepts (.f 0) 0 = .ok () ∧
    ChallengeRating.accepts (.s "0") 0 =
      .error "XP value does not match expected value" ∧
    ChallengeRating.accepts (.s "0") 10 = .ok () ∧
    ChallengeRating.accepts (.f 30) 155000 = .ok () ∧
    ChallengeRating.accepts (.f 30) 155001 =
      .error "XP value does not match expected value" ∧
    ChallengeRating.accepts (.f (mkRat 5 2)) 575 =
      .error "Invalid CR value for XP lookup" ∧
    ChallengeRating.accepts (.f 31) 200000 =
      .error "CR must be between 0 and 30" := by
  refine ⟨by decide, by decide, by decide, by decide, by decide, by decide, by decide,
          by decide, by decide, by decide, by decide, by decide, by decide, by decide⟩

/-- C4: `calculate_proficiency_bonus`, applied to the rating strings it is
annotated to take, yields exactly the claimed values — `2 + (CR-1) // 4`
for the integer strings `"1".."30"` (so CR 1 → 2, 5 → 3, 17 → 6, 30 → 9)
and 2 for `"0"` and the fraction strings.  But the enforcement path,
`StatBlockValidator.validate_proficiency_bonus`, first converts the rating
to a float and then calls `calculate_proficiency_bonus` with it, whose
`'/' not in cr` membership test raises `TypeError` on a float — so record
validation never computes the bonus for any challenge rating. -/
theorem proficiency_bonus_formula_and_validation :
    (List.all (List.range 30) fun k =>
      decide (calculate_proficiency_bonus (.s (toString (k + 1))) =
        .ok (2 + (k : Int) / 4))) = true ∧
    calculate_proficiency_bonus (.s "1") = .ok 2 ∧
    calculate_proficiency_bonus (.s "5") = .ok 3 ∧
    calculate_proficiency_bonus (.s "17") = .ok 6 ∧
    calculate_proficiency_bonus (.s "30") = .ok 9 ∧
    calculate_proficiency_bonus (.s "0") = .ok 2 ∧
    calculate_proficiency_bonus (.s "1/8") = .ok 2 ∧
    calculate_proficiency_bonus (.s "1/4") = .ok 2 ∧
    calculate_proficiency_bonus (.s "1/2") = .ok 2 ∧
    validate_proficiency_bonus (.s "5") (some 3) =
      .error "TypeError: argument of type float is not iterable" ∧
    validate_proficiency_bonus (.s "1/8") (some 2) =
      .error "TypeError: argument of type float is not iterable" ∧
    validate_proficiency_bonus (.f 5) (some 3) =
      .error "TypeError: argument of type float is not iterable" := by
  refine ⟨by decide, by decide, by decide, by decide, by decide, by decide, by decide,
          by decide, by decide, by decide, by decide, by decide⟩

/-- C3: the spellcasting DC/attack-bonus cross-check is dead code.  In
pydantic the `dc` and `attack_bonus` validators run before `base_modifier`
has been validated, so `info.data.get('base_modifier')` is `None` and the
cross-check is skipped: with `base_modifier = 4` the trait is accepted with
`dc = 20` (which the claim requires to fail) and indeed with any dc in
0..30.  Moreover `SpellcastingTrait` has no `proficiency_bonus` field, so
even if the check ran it would use the default proficiency 2 and reject the
claimed `dc = 15` / `attack_bonus = 7` (expecting 14 and 6). -/
theorem spellcasting_dc_validation_results :
    SpellcastingTrait.accepts ⟨.regular, .wisdom, 20, 6, 4⟩ = .ok () ∧
    (20 : Int) ≠ 8 + 4 + 3 ∧
    SpellcastingTrait.accepts ⟨.regular, .wisdom, 15, 7, 4⟩ = .ok () ∧
    SpellcastingTrait.accepts ⟨.regular, .wisdom, 0, 0, 4⟩ = .ok () ∧
    SpellcastingTrait.accepts ⟨.regular, .wisdom, 31, 7, 4⟩ =
      .error "Spell save DC must be between 0 and 30" ∧
    SpellcastingTrait.validate_dc 15 (some 4) none =
      .error "DC does not match calculated DC" ∧
    SpellcastingTrait.validate_dc 14 (some 4) none = .ok 14 ∧
    SpellcastingTrait.validate_dc 15 (some 4) (some 3) = .ok 15 ∧
    SpellcastingTrait.validate_attack_bonus 7 (some 4) none =
      .error "Attack bonus does not match calculated bonus" := by
  refine ⟨by decide, by decide, by decide, by decide, by decide, by decide, by decide,
          by decide, by decide⟩

/-- C7: parsing `"Speed 30 ft., fly 60 ft. (hover)"` yields exactly the
dictionary `{walk: 30, fly: 60, hover: True}` with no `special` key, and
parsing `"Speed 30 ft., climb 20 ft., 10 ft. underwater"` yields a
dictionary whose `special` entry is the non-empty string `"underwater"`
(the bare `10 ft.` segment also overwrites `walk`, which the claim does not
constrain). -/
theorem speed_parsing_examples :
    CoreStatsParser.parse_speed "Speed 30 ft., fly 60 ft. (hover)" =
      [("walk", .num 30), ("fly", .num 60), ("hover", .flag true)] ∧
    dictGet (CoreStatsParser.parse_speed "Speed 30 ft., fly 60 ft. (hover)")
      "special" = none ∧
    CoreStatsParser.parse_speed "Speed 30 ft., climb 20 ft., 10 ft. underwater" =
      [("walk", .num 10), ("climb", .num 20), ("special", .strv "underwater")] ∧
    dictGet (CoreStatsParser.parse_speed
      "Speed 30 ft., climb 20 ft., 10 ft. underwater") "special" =
      some (.strv "underwater") ∧
    ("underwater" : String) ≠ "" ∧
    containsSub "underwater".data "underwater".data = true := by
  refine ⟨by decide, by decide, by decide, by decide, by decide, by decide⟩

/-- C8: the cost parenthetical of legendary actions.
`LegendaryActionsParser.parse_legendary_actions` applies
`extract_parenthetical` to the entry title before searching for
`(costs <n> actions)`, so the parenthetical is already stripped and the
cost search never matches: the entry `Wing Attack (costs 2 actions).`
gets cost 1 instead of the claimed 2 (the display name is stripped, but by
the wrong mechanism, as the parser's own cost regex and its
`# Parse cost if specified` comment show).  The converter's
`_process_legendary_actions` implements the claimed behaviour for the
quoted lower-case parenthetical — cost 2, parenthetical stripped, default
cost 1 without one — though its `re.sub` is case-sensitive, so a
capitalised `(Costs 2 Actions)` is costed but not stripped. -/
theorem legendary_cost_parenthetical_results :
    LegendaryActionsParser.parseEntry
        "Wing Attack (costs 2 actions). The dragon beats its wings." =
      { name := "Wing Attack", description := "The dragon beats its wings.",
        cost := 1, usage := some (.costs 2) } ∧
    (LegendaryActionsParser.parse_legendary_actions
        "The dragon can take 3 legendary actions."
        ["Wing Attack (costs 2 actions). The dragon beats its wings."]).actions =
      [{ name := "Wing Attack", description := "The dragon beats its wings.",
         cost := 1, usage := some (.costs 2) }] ∧
    DocxConverter.legendaryEntry "Wing Attack (costs 2 actions)"
        "The dragon beats its wings." =
      { name := "Wing Attack", description := "The dragon beats its wings.",
        cost := 2, usage := none } ∧
    DocxConverter.legendaryEntry "Detect" "The dragon makes a check." =
      { name := "Detect", description := "The dragon makes a check.",
        cost := 1, usage := none } ∧
    DocxConverter.legendaryEntry "Wing Attack (Costs 2 Actions)"
        "The dragon beats its wings." =
      { name := "Wing Attack (Costs 2 Actions)",
        description := "The dragon beats its wings.",
        cost := 2, usage := none } := by
  refine ⟨by decide, by decide, by decide, by decide, by decide⟩

/-- An attack whose `is_melee` is false is rejected outright: when the
shared `validate_attack_types` validator runs on the `is_melee` field,
neither flag is in `info.data` yet, so both default to `False`. -/
theorem acceptsRejectsNonMelee (a : Attack) (h : a.is_melee = false) :
    AttackValidators.accepts a ≠ .ok () := by
  simp [AttackValidators.accepts, AttackValidators.validateIsMelee, h]

theorem validateReachMeleeOk (v : Option String) :
    AttackValidators.validateReach v true = .ok v := by
  cases v with
  | none => rfl
  | some s => simp [AttackValidators.validateReach]

theorem validateMagicalCases (v : Option Int) :
    AttackValidators.validateMagicalBonus v = .ok v ∨
      ∃ e, AttackValidators.validateMagicalBonus v = .error e := by
  cases v with
  | none => exact .inl rfl
  | some m =>
    by_cases h : ¬(0 ≤ m ∧ m ≤ 3)
    · exact .inr ⟨"Magical bonus must be between 0 and 3",
        by simp [AttackValidators.validateMagicalBonus, h]⟩
    · exact .inl (by simp [AttackValidators.validateMagicalBonus, h])

/-- A melee-only attack carrying a non-empty `range` string is rejected by
`validate_range`. -/
theorem acceptsRejectsRangeConflict (a : Attack) (s : String)
    (hm : a.is_melee = true) (hrg : a.is_ranged = false)
    (hr : a.range = some s) (hs : s ≠ "") :
    AttackValidators.accepts a ≠ .ok () := by
  intro hacc
  rcases validateMagicalCases a.magical_bonus with hmb | ⟨e, hmb⟩ <;>
    simp [AttackValidators.accepts, AttackValidators.validateIsMelee,
          AttackValidators.validateIsRanged, AttackValidators.validateRange,
          validateReachMeleeOk, hm, hrg, hr, hs, hmb] at hacc

/-- C5 counterexample: the `Attack` with `is_ranged = False` and
`range = ""` — a non-null range on a non-ranged attack — is accepted,
because `validate_range` tests Python truthiness (`if v`) and the empty
string is falsy. -/
theorem attack_empty_range_accepted :
    AttackValidators.accepts
      { weapon_type := "weapon", is_melee := true, is_ranged := false,
        bonus := 0, ability_used := none, magical_bonus := none,
        reach := none, range := some "" } = .ok () ∧
    (some "" : Option String) ≠ none ∧
    ({ weapon_type := "weapon", is_melee := true, is_ranged := false,
       bonus := 0, ability_used := none, magical_bonus := none,
       reach := none, range := some "" } : Attack).is_ranged = false := by
  refine ⟨by decide, by decide, by decide⟩

/-- C5 (amended): for every accepted `Attack`, a *non-empty* `reach` implies
`is_melee` and a *non-empty* `range` implies `is_ranged`; and constructing
an attack with a non-empty `reach` while `is_melee` is false, or a
non-empty `range` while `is_ranged` is false, fails validation.  (Only the
empty string escapes the Python truthiness test `if v`; `None` never
conflicts.) -/
theorem attack_reach_range_exclusivity (a : Attack) :
    (AttackValidators.accepts a = .ok () →
      (∀ s, a.reach = some s → s ≠ "" → a.is_melee = true) ∧
      (∀ s, a.range = some s → s ≠ "" → a.is_ranged = true)) ∧
    (∀ s, a.reach = some s → s ≠ "" → a.is_melee = false →
      AttackValidators.accepts a ≠ .ok ()) ∧
    (∀ s, a.range = some s → s ≠ "" → a.is_ranged = false →
      AttackValidators.accepts a ≠ .ok ()) := by
  refine ⟨?_, ?_, ?_⟩
  · intro hacc
    have hm : a.is_melee = true := by
      cases hm : a.is_melee
      · exact absurd hacc (acceptsRejectsNonMelee a hm)
      · rfl
    refine ⟨fun s _ _ => hm, ?_⟩
    intro s hr hs
    cases hrg : a.is_ranged
    · exact absurd hacc (acceptsRejectsRangeConflict a s hm hrg hr hs)
    · rfl
  · exact fun s _ _ hmel => acceptsRejectsNonMelee a hmel
  · intro s hr hs hrg
    cases hm : a.is_melee
    · exact acceptsRejectsNonMelee a hm
    · exact acceptsRejectsRangeConflict a s hm hrg hr hs

/-- Witness for the amended C5 theorem at a concrete attack: a non-empty
range string on a melee-only attack is rejected. -/
theorem attack_reach_range_exclusivity_witness :
    AttackValidators.accepts
      { weapon_type := "weapon", is_melee := true, is_ranged := false,
        bonus := 4, ability_used := none, magical_bonus := none,
        reach := some "5 ft.", range := some "30/120 ft." } ≠ .ok () :=
  (attack_reach_range_exclusivity _).2.2 "30/120 ft." rfl (by decide) rfl

theorem checkDamageTokensOkIff (v : List String) :
    checkDamageTokens v = .ok () ↔
      v.all DamageTypeParser.validate_damage_type = true := by
  induction v with
  | nil => simp [checkDamageTokens]
  | cons t ts ih =>
    cases h : DamageTypeParser.validate_damage_type t
    · simp [checkDamageTokens, h]
    · simp [checkDamageTokens, h, ih]

/-- C6: `"nonmagical slashing"` is accepted and `"nonmagical fire"` is
rejected by `validate_damage_type`; over all thirteen base types, a
`nonmagical`-prefixed token is accepted exactly when the base type is
physical; and the resistance/immunity loop of `StatBlockValidator`
succeeds exactly when every token validates (so one rejected token fails
record validation). -/
theorem nonmagical_damage_type_rules :
    DamageTypeParser.validate_damage_type "nonmagical slashing" = true ∧
    DamageTypeParser.validate_damage_type "nonmagical fire" = false ∧
    (DamageTypeParser.PHYSICAL_DAMAGE_TYPES.all fun b =>
      DamageTypeParser.validate_damage_type ("nonmagical " ++ b)) = true ∧
    (DamageTypeParser.ENERGY_DAMAGE_TYPES.all fun b =>
      !DamageTypeParser.validate_damage_type ("nonmagical " ++ b)) = true ∧
    ∀ v : List String,
      checkDamageTokens v = .ok () ↔
        v.all DamageTypeParser.validate_damage_type = true :=
  ⟨by decide, by decide, by decide, by decide, checkDamageTokensOkIff⟩

/-- Witness for C6 at a concrete token list: a list with a valid
`nonmagical` token passes the resistance loop. -/
theorem nonmagical_damage_type_rules_witness :
    checkDamageTokens ["nonmagical slashing", "cold"] = .ok () :=
  (nonmagical_damage_type_rules.2.2.2.2 ["nonmagical slashing", "cold"]).mpr
    (by decide)

/-- C9 counterexample: in `innateZeroText` the explicit
`spellcasting ability ... is <signed-int>` phrase is present (it parses to
`+0`), yet the parser falls back to the stored modifier `3` because `0` is
falsy; and with no phrase at all a stored modifier of `0` — an available
value — raises the data error.  So the phrase is not always used when
present, and the error is not raised exactly when the fallback is
unavailable. -/
theorem spellcasting_zero_modifier_counterexample :
    (SpellcastingParser.modifierRx.search innateZeroText.data).isSome = true ∧
    SpellcastingParser.parseModifiers innateZeroText = (10, 0, 0) ∧
    SpellcastingParser.resolveModifiers innateZeroText [("wisdom", some 3)] =
      .ok (10, 0, 3) ∧
    SpellcastingParser.resolveModifiers
      "Spellcasting. It uses Wisdom to cast spells."
      [("wisdom", some 0)] = .error "Spellcasting ability modifier not found" := by
  refine ⟨by decide, by decide, by decide, by decide⟩

/-- C9 (amended): the Spellcasting Parser takes `base_modifier` from the
explicit phrase only when the parsed value is non-zero; when the phrase is
absent or parses to `0` it falls back to the stored modifier of the
detected ability, accepting it only when it is present and non-zero;
otherwise it raises (`ValueError` for a zero/absent modifier entry,
`KeyError` for a missing ability). -/
theorem spellcasting_modifier_resolution (text : String)
    (ab : SpellcastingParser.Abilities) :
    (∀ dc atk m, SpellcastingParser.parseModifiers text = (dc, atk, m) →
      m ≠ 0 →
      SpellcastingParser.resolveModifiers text ab = .ok (dc, atk, m)) ∧
    (∀ dc atk m, SpellcastingParser.parseModifiers text = (dc, atk, 0) →
      SpellcastingParser.storedModifier text ab = some (some m) → m ≠ 0 →
      SpellcastingParser.resolveModifiers text ab = .ok (dc, atk, m)) ∧
    (∀ dc atk, SpellcastingParser.parseModifiers text = (dc, atk, 0) →
      (SpellcastingParser.storedModifier text ab = some (some 0) ∨
        SpellcastingParser.storedModifier text ab = some none) →
      SpellcastingParser.resolveModifiers text ab =
        .error "Spellcasting ability modifier not found") ∧
    (∀ dc atk, SpellcastingParser.parseModifiers text = (dc, atk, 0) →
      SpellcastingParser.storedModifier text ab = none →
      SpellcastingParser.resolveModifiers text ab =
        .error ("KeyError: " ++
          (pyLower (SpellcastingParser.parseAbility text).data).asString)) := by
  refine ⟨?_, ?_, ?_, ?_⟩
  · intro dc atk m hpm hm
    simp [SpellcastingParser.resolveModifiers, Except.map, hpm, hm]
  · intro dc atk m hpm hst hm
    simp [SpellcastingParser.resolveModifiers, Except.map, hpm, hst, hm]
  · intro dc atk hpm hst
    rcases hst with hst | hst <;>
      simp [SpellcastingParser.resolveModifiers, Except.map, hpm, hst]
  · intro dc atk hpm hst
    simp [SpellcastingParser.resolveModifiers, Except.map, hpm, hst]

/-- Witness for the amended C9 theorem: the fallback arm applied to
`innateZeroText` with a stored Wisdom modifier of `3`. -/
theorem spellcasting_modifier_resolution_witness :
    SpellcastingParser.resolveModifiers innateZeroText [("wisdom", some 3)] =
      .ok (10, 0, 3) :=
  (spellcasting_modifier_resolution innateZeroText [("wisdom", some 3)]).2.1
    10 0 3 (by decide) (by decide) (by decide)

theorem validateAllBase : ∀ b ∈ DamageTypeParser.allDamageTypes,
    DamageTypeParser.validate_damage_type b = true := by decide

theorem validateNonmagBase : ∀ b ∈ DamageTypeParser.PHYSICAL_DAMAGE_TYPES,
    DamageTypeParser.validate_damage_type ("nonmagical " ++ b) = true := by decide

theorem insertTokenAll (acc : List String) (tok : String)
    (h : ∀ t ∈ acc, DamageTypeParser.validate_damage_type t = true)
    (htok : DamageTypeParser.validate_damage_type tok = true) :
    ∀ t ∈ DamageTypeParser.insertToken acc tok,
      DamageTypeParser.validate_damage_type t = true := by
  intro t ht
  unfold DamageTypeParser.insertToken at ht
  split at ht
  · exact h t ht
  · rcases List.mem_append.mp ht with h1 | h2
    · exact h t h1
    · have : t = tok := by simpa using h2
      rw [this]; exact htok

theorem insertTokenNodup (acc : List String) (tok : String) (h : acc.Nodup) :
    (DamageTypeParser.insertToken acc tok).Nodup := by
  unfold DamageTypeParser.insertToken
  split
  · exact h
  · rename_i hnc
    have : tok ∉ acc := fun hm => hnc (List.elem_iff.mpr hm)
    simp [List.nodup_append, h, this]

theorem addTokenAll (nm : Bool) (acc : List String) (dt : List Char)
    (h : ∀ t ∈ acc, DamageTypeParser.validate_damage_type t = true) :
    ∀ t ∈ DamageTypeParser.addToken nm acc dt,
      DamageTypeParser.validate_damage_type t = true := by
  intro t ht
  unfold DamageTypeParser.addToken at ht
  split at ht
  · exact h t ht
  · split at ht
    · exact h t ht
    · rename_i base hf
      have hbase : base ∈ DamageTypeParser.allDamageTypes :=
        List.mem_of_find?_eq_some hf
      refine insertTokenAll acc _ h ?_ t ht
      by_cases hc : (nm && DamageTypeParser.PHYSICAL_DAMAGE_TYPES.contains base) = true
      · rw [if_pos hc]
        have hphys : base ∈ DamageTypeParser.PHYSICAL_DAMAGE_TYPES :=
          List.elem_iff.mp (Bool.and_elim_right hc)
        exact validateNonmagBase base hphys
      · rw [if_neg hc]
        exact validateAllBase base hbase

theorem addTokenNodup (nm : Bool) (acc : List String) (dt : List Char)
    (h : acc.Nodup) : (DamageTypeParser.addToken nm acc dt).Nodup := by
  unfold DamageTypeParser.addToken
  split
  · exact h
  · split
    · exact h
    · exact insertTokenNodup acc _ h

theorem foldlAddTokenAll (nm : Bool) (ts : List (List Char)) :
    ∀ acc, (∀ t ∈ acc, DamageTypeParser.validate_damage_type t = true) →
      ∀ t ∈ ts.foldl (DamageTypeParser.addToken nm) acc,
        DamageTypeParser.validate_damage_type t = true := by
  induction ts with
  | nil => intro acc h; simpa using h
  | cons d ds ih => intro acc h; exact ih _ (addTokenAll nm acc d h)

theorem foldlAddTokenNodup (nm : Bool) (ts : List (List Char)) :
    ∀ acc, acc.Nodup → (ts.foldl (DamageTypeParser.addToken nm) acc).Nodup := by
  induction ts with
  | nil => intro acc h; simpa using h
  | cons d ds ih => intro acc h; exact ih _ (addTokenNodup nm acc d h)

theorem addGroupAll (acc : List String) (g : List Char)
    (h : ∀ t ∈ acc, DamageTypeParser.validate_damage_type t = true) :
    ∀ t ∈ DamageTypeParser.addGroup acc g,
      DamageTypeParser.validate_damage_type t = true :=
  foldlAddTokenAll _ _ acc h

theorem addGroupNodup (acc : List String) (g : List Char) (h : acc.Nodup) :
    (DamageTypeParser.addGroup acc g).Nodup :=
  foldlAddTokenNodup _ _ acc h

theorem foldlAddGroupAll (gs : List (List Char)) :
    ∀ acc, (∀ t ∈ acc, DamageTypeParser.validate_damage_type t = true) →
      ∀ t ∈ gs.foldl DamageTypeParser.addGroup acc,
        DamageTypeParser.validate_damage_type t = true := by
  induction gs with
  | nil => intro acc h; simpa using h
  | cons g gs ih => intro acc h; exact ih _ (addGroupAll acc g h)

theorem foldlAddGroupNodup (gs : List (List Char)) :
    ∀ acc, acc.Nodup → (gs.foldl DamageTypeParser.addGroup acc).Nodup := by
  induction gs with
  | nil => intro acc h; simpa using h
  | cons g gs ih => intro acc h; exact ih _ (addGroupNodup acc g h)

/-- C10: for every input string, every token in the list returned by
`parse_damage_types` satisfies `validate_damage_type` (each is a recognized
damage type, or `nonmagical` followed by a physical type), and the
returned list has no duplicates — the parser only ever emits one of the
thirteen base-type names or a `nonmagical`-prefixed physical name, its
accumulator is a set, and the final sort is a permutation. -/
theorem parse_damage_types_sound (text : String) :
    (DamageTypeParser.parse_damage_types text).all
      DamageTypeParser.validate_damage_type = true ∧
    (DamageTypeParser.parse_damage_types text).Nodup := by
  unfold DamageTypeParser.parse_damage_types
  split
  · simp
  · set gs := (pySplitOn [';'] text.data).map pyStrip with hgs
    have hall := foldlAddGroupAll gs [] (by simp)
    have hnd := foldlAddGroupNodup gs [] List.nodup_nil
    have hperm := List.perm_insertionSort
      (fun a b => charListLe a.data b.data = true)
      (gs.foldl DamageTypeParser.addGroup [])
    constructor
    · exact List.all_eq_true.mpr fun t ht =>
        hall t (hperm.mem_iff.mp ht)
    · exact hperm.symm.nodup hnd

end StatBlock





